import Mathlib

/-!
Verification of the e-commerce API core (pricing engine, order lifecycle,
cart workflow, payment refund) against a shallow embedding of the
TypeScript sources.

Numbers: the source computes with JS numbers; we embed them as `ℚ`, so
arithmetic identities are exact.  `Math.round x` is `⌊x + 1/2⌋` for every
finite JS number, which is how we model it.  Currency strings produced by
`formatPrice` (the TS returns the text `"$" ++ value.toFixed 2`) are
abstracted by the numeric value they display, i.e. the value rounded to
two decimals.
-/

namespace ECom

/-- Model of `roundToDecimals` in `src/utils/helpers.ts`:
`Math.round(value * 10^d) / 10^d`, with `Math.round x = ⌊x + 1/2⌋`. -/
def roundToDecimals (value : ℚ) (decimals : ℕ) : ℚ :=
  (⌊value * 10 ^ decimals + 1 / 2⌋ : ℚ) / 10 ^ decimals

/-- Model of `formatPrice` in `src/utils/helpers.ts`: `validateAmount` is the
identity on (finite) numbers and `formatCurrency` displays the value rounded
to two decimals; we keep the displayed numeric value. -/
def formatPriceVal (amount : ℚ) : ℚ :=
  roundToDecimals amount 2

/-- Line item of an order (`OrderItem` in `src/types`): product reference,
optional name, unit price, quantity, optional weight, optional discount. -/
structure OrderItem where
  productId : String
  name : Option String
  price : ℚ
  quantity : ℚ
  weight : Option ℚ
  discountPercent : Option ℚ
deriving DecidableEq

/-- Totals record (`OrderTotals` in `src/types`): the four formatted-currency
fields are modelled by the numeric values they display, `rawTotal` is the raw
numeric grand total. -/
structure OrderTotals where
  subtotal : ℚ
  tax : ℚ
  shipping : ℚ
  total : ℚ
  rawTotal : ℚ
deriving DecidableEq

/-- Model of `applyDiscount` in `src/utils/helpers.ts`.  The TS guard
`if (!discountPercent) return price` fires when `discountPercent` is absent
or `0` (JS falsiness). -/
def applyDiscount (price : ℚ) (discountPercent : Option ℚ) : ℚ :=
  match discountPercent with
  | none => price
  | some d => if d = 0 then price else price - price * d / 100

/-- Model of `calculateItemTotal` in `src/utils/helpers.ts`.
`item.price || 0` is the identity on `ℚ`; `item.quantity || 1` replaces a
zero quantity by `1` (JS falsiness). -/
def calculateItemTotal (item : OrderItem) : ℚ :=
  applyDiscount item.price item.discountPercent *
    (if item.quantity = 0 then 1 else item.quantity)

/-- Model of `calculateSubtotal` in `src/utils/helpers.ts` (a `reduce` with
initial accumulator `0`). -/
def calculateSubtotal (items : List OrderItem) : ℚ :=
  items.foldl (fun sum item => sum + calculateItemTotal item) 0

/-- Model of `calculateTax` in `src/utils/helpers.ts`: flat 8% rate, rounded
to two decimals. -/
def calculateTax (subtotal : ℚ) : ℚ :=
  roundToDecimals (subtotal * 0.08) 2

/-- Weight contributed by one item in `calculateTotalWeight`:
`item.weight || 0.5` defaults an absent or zero weight to `0.5`. -/
def itemWeight (item : OrderItem) : ℚ :=
  match item.weight with
  | none => 0.5
  | some w => if w = 0 then 0.5 else w

/-- Model of `calculateTotalWeight` in `src/utils/helpers.ts`. -/
def calculateTotalWeight (items : List OrderItem) : ℚ :=
  items.foldl (fun sum item => sum + itemWeight item) 0

/-- Model of `calculateShippingCost` in `src/utils/helpers.ts`:
base rate `5.99` plus `0.5` per weight unit, rounded to two decimals. -/
def calculateShippingCost (items : List OrderItem) : ℚ :=
  roundToDecimals (5.99 + calculateTotalWeight items * 0.5) 2

/-- Model of `calculateTotal` / `computeFinalTotal` in
`src/utils/helpers.ts`: the grand total is `subtotal + tax + shipping`,
not rounded again; only its display is formatted. -/
def calculateTotal (items : List OrderItem) : OrderTotals :=
  let subtotal := calculateSubtotal items
  let tax := calculateTax subtotal
  let shipping := calculateShippingCost items
  let total := subtotal + tax + shipping
  { subtotal := formatPriceVal subtotal
    tax := formatPriceVal tax
    shipping := formatPriceVal shipping
    total := formatPriceVal total
    rawTotal := total }

/-- Subtotal formula exactly as the specification sentence states it:
`Σ (unitPrice − unitPrice × discountPercent / 100) × quantity`, quantity
taken literally. -/
def claimedSubtotal (items : List OrderItem) : ℚ :=
  (items.map (fun item =>
    (item.price - item.price * (item.discountPercent.getD 0) / 100) * item.quantity)).sum

/-- Subtotal formula the code actually implements, in closed form: an item
with quantity `0` is billed with quantity `1` (JS falsy default). -/
def amendedSubtotal (items : List OrderItem) : ℚ :=
  (items.map (fun item =>
    (item.price - item.price * (item.discountPercent.getD 0) / 100) *
      (if item.quantity = 0 then 1 else item.quantity))).sum

/-- Total weight in closed form: an absent weight or an explicit weight of
`0` contributes `0.5` (JS falsy default). -/
def amendedWeight (items : List OrderItem) : ℚ :=
  (items.map itemWeight).sum

/-! ## Record store: products and orders

The in-memory store (`src/utils/database.ts`) keeps each collection as an
ordered list; `findRecordById` is a first-match scan and `updateRecord`
replaces the first record with a matching id by the merged record (setting
`updatedAt`).  Fields of the TS entities that no claim touches
(descriptions, rating aggregates, record timestamps on products) are
omitted from the embedding. -/

/-- Order status enum (`OrderStatus` in `src/types`). -/
inductive OrderStatus where
  | pending
  | confirmed
  | processing
  | shipped
  | delivered
  | cancelled
deriving DecidableEq

/-- Shipping address (`Address` in `src/types`); the optional state/country
fields play no role in any claim. -/
structure Address where
  street : String
  city : String
  zipCode : String
deriving DecidableEq

/-- Catalog product (`Product` in `src/types`). -/
structure Product where
  id : String
  name : String
  price : ℚ
  categoryId : String
  stock : ℚ
deriving DecidableEq

/-- Stored order (`Order` in `src/types`). -/
structure Order where
  id : String
  userId : String
  items : List OrderItem
  shippingAddress : Address
  shippingMethod : String
  status : OrderStatus
  totals : OrderTotals
  createdAt : ℚ
  updatedAt : Option ℚ
deriving DecidableEq

/-- The slice of the global `database` object the order claims touch. -/
structure Database where
  products : List Product
  orders : List Order
deriving DecidableEq

/-- Model of `findRecordById('products', pid)`: first-match scan. -/
def findProduct (products : List Product) (pid : String) : Option Product :=
  products.find? (fun p => p.id == pid)

/-- Model of `findRecordById('orders', oid)`: first-match scan. -/
def findOrder (orders : List Order) (oid : String) : Option Order :=
  orders.find? (fun o => o.id == oid)

/-- Model of `updateRecord('products', pid, { stock })`: replace the first record
with the matching id, writing the given stock value. -/
def setStockFirst : List Product → String → ℚ → List Product
  | [], _, _ => []
  | p :: rest, pid, v =>
    if p.id == pid then { p with stock := v } :: rest
    else p :: setStockFirst rest pid v

/-- Common shape of `updateProductStock` / `restoreProductStock` in
`orderRoutes.ts`: look the product up, then write `f(stock, quantity)`. -/
def adjustProductStock1 (f : ℚ → ℚ → ℚ) (products : List Product)
    (item : OrderItem) : List Product :=
  match findProduct products item.productId with
  | none => products
  | some p => setStockFirst products p.id (f p.stock item.quantity)

/-- Model of `updateProductStock` in `orderRoutes.ts`: per item, decrement
the referenced product's stock by the item quantity (skipping missing
products). -/
def updateProductStock (products : List Product) (items : List OrderItem) : List Product :=
  items.foldl (adjustProductStock1 (fun s q => s - q)) products

/-- Model of `restoreProductStock` in `orderRoutes.ts`: per item, increment
the referenced product's stock by the item quantity. -/
def restoreProductStock (products : List Product) (items : List OrderItem) : List Product :=
  items.foldl (adjustProductStock1 (fun s q => s + q)) products

/-- Observer: the stock of the (first) product with the given id. -/
def getStock (products : List Product) (pid : String) : Option ℚ :=
  (findProduct products pid).map (fun p => p.stock)

/-- Total quantity the items of an order carry for one product id. -/
def qtySum : List OrderItem → String → ℚ
  | [], _ => 0
  | item :: rest, pid =>
    (if item.productId = pid then item.quantity else 0) + qtySum rest pid

/-! ## Order lifecycle routes (`src/routes` order router) -/

/-- Model of `getValidTransitions` in `orderRoutes.ts`. -/
def getValidTransitions : OrderStatus → List OrderStatus
  | .pending => [.confirmed, .cancelled]
  | .confirmed => [.processing, .cancelled]
  | .processing => [.shipped, .cancelled]
  | .shipped => [.delivered]
  | .delivered => []
  | .cancelled => []

/-- Model of `isValidStatusTransition` in `orderRoutes.ts`. -/
def isValidStatusTransition (current newStatus : OrderStatus) : Bool :=
  (getValidTransitions current).contains newStatus

/-- The transition table exactly as the specification writes it. -/
def claimedTransitionPairs : List (OrderStatus × OrderStatus) :=
  [(.pending, .confirmed), (.pending, .cancelled),
   (.confirmed, .processing), (.confirmed, .cancelled),
   (.processing, .shipped), (.processing, .cancelled),
   (.shipped, .delivered)]

/-- Model of `updateRecord('orders', oid, { status })`: replace the first order with
the matching id, writing the new status and an update timestamp. -/
def setOrderStatusFirst : List Order → String → OrderStatus → ℚ → List Order
  | [], _, _, _ => []
  | o :: rest, oid, st, now =>
    if o.id == oid then { o with status := st, updatedAt := some now } :: rest
    else o :: setOrderStatusFirst rest oid st now

/-- Model of `PATCH /orders/:id/status`: reject unknown ids and invalid
transitions (leaving the store untouched), otherwise write the new status. -/
def statusUpdateStep (db : Database) (oid : String) (newStatus : OrderStatus)
    (now : ℚ) : Database × Bool :=
  match findOrder db.orders oid with
  | none => (db, false)
  | some o =>
    if isValidStatusTransition o.status newStatus then
      ({ db with orders := setOrderStatusFirst db.orders oid newStatus now }, true)
    else (db, false)

/-- The `cancellableStatuses` list in `canCancelOrder`. -/
def cancellableStatuses : List OrderStatus := [.pending, .confirmed, .processing]

/-- Model of `canCancelOrder` in `orderRoutes.ts`. -/
def canCancelOrder (o : Order) : Bool := cancellableStatuses.contains o.status

/-- The `modifiableStatuses` list in `canModifyOrder`. -/
def modifiableStatuses : List OrderStatus := [.pending, .confirmed]

/-- Model of `canModifyOrder` in `orderRoutes.ts`. -/
def canModifyOrder (o : Order) : Bool := modifiableStatuses.contains o.status

/-- Model of `POST /orders/:id/cancel`: look the order up, reject when not
cancellable, otherwise set the status to `cancelled` and restore the stock
of every item of the order that was fetched before the update. -/
def cancelOrderStep (db : Database) (oid : String) (now : ℚ) : Database × Bool :=
  match findOrder db.orders oid with
  | none => (db, false)
  | some o =>
    if canCancelOrder o then
      ({ products := restoreProductStock db.products o.items,
         orders := setOrderStatusFirst db.orders oid .cancelled now }, true)
    else (db, false)

/-- Model of `validateRequiredField` in `src/utils/validators.ts`
(`undefined`/`null` is `none`; the empty string is also rejected). -/
def validateRequiredField : Option String → Bool
  | none => false
  | some s => s != ""

/-- Order-creation request body (the fields `validateOrder` and
`buildOrderObject` read). -/
structure OrderRequest where
  userId : Option String
  items : List OrderItem
  shippingAddress : Option Address
  shippingMethod : Option String
deriving DecidableEq

/-- Model of `validateShippingAddress` in `src/utils/validators.ts`. -/
def validateShippingAddress : Option Address → Bool
  | none => false
  | some a => a.street != "" && a.city != "" && a.zipCode != ""

/-- Model of `validateOrder` in `src/utils/validators.ts`: the TS collects
field errors and reports `isValid` iff none occurred, i.e. the conjunction
of the three field checks. -/
def validateOrderB (r : OrderRequest) : Bool :=
  validateRequiredField r.userId && !r.items.isEmpty &&
    validateShippingAddress r.shippingAddress

/-- Model of `validateStockAvailability` in `orderRoutes.ts`: scan the items
in order; fail on the first missing product or on the first item whose
quantity exceeds the product's current stock. -/
def validateStockAvailability (products : List Product) : List OrderItem → Bool
  | [] => true
  | item :: rest =>
    match findProduct products item.productId with
    | none => false
    | some p =>
      if p.stock < item.quantity then false
      else validateStockAvailability products rest

/-- Model of `enrichOrderItems` in `orderRoutes.ts`: snapshot name and unit
price from the current catalog record, `'Unknown'` / `0` when the product
does not exist. -/
def enrichOrderItems (products : List Product) (items : List OrderItem) : List OrderItem :=
  items.map fun item =>
    match findProduct products item.productId with
    | some p => { item with name := some p.name, price := p.price }
    | none => { item with name := some "Unknown", price := 0 }

/-- Model of `buildOrderObject` in `orderRoutes.ts` (the generated id and
the clock are passed in explicitly; `insertRecord` keeps the id already
present on the object). -/
def buildOrderObject (products : List Product) (data : OrderRequest)
    (newId : String) (now : ℚ) : Order :=
  let items := enrichOrderItems products data.items
  { id := newId
    userId := data.userId.getD ""
    items := items
    shippingAddress := data.shippingAddress.getD ⟨"", "", ""⟩
    shippingMethod := data.shippingMethod.getD "standard"
    status := .pending
    totals := calculateTotal items
    createdAt := now
    updatedAt := none }

/-- Model of `POST /orders`: field validation, then the stock check, and
only if both pass insert the order and decrement the stocks. -/
def createOrderStep (db : Database) (req : OrderRequest) (newId : String)
    (now : ℚ) : Database × Option Order :=
  if validateOrderB req then
    if validateStockAvailability db.products req.items then
      let ord := buildOrderObject db.products req newId now
      ({ products := updateProductStock db.products ord.items,
         orders := db.orders ++ [ord] }, some ord)
    else (db, none)
  else (db, none)

/-- Generic order-update payload (`Partial<Order>` as read by
`filterOrderUpdates` / `updateRecord`). -/
structure OrderUpdate where
  id : Option String
  userId : Option String
  items : Option (List OrderItem)
  shippingAddress : Option Address
  shippingMethod : Option String
  status : Option OrderStatus
  createdAt : Option ℚ
deriving DecidableEq

/-- Model of `filterOrderUpdates` in `orderRoutes.ts`: the destructuring
`const { id, createdAt, ...safe } = updates` drops exactly `id` and
`createdAt` (and nothing else — in particular `status` is kept). -/
def filterOrderUpdates (u : OrderUpdate) : OrderUpdate :=
  { u with id := none, createdAt := none }

/-- Model of the `updateRecord` field merge (`{ ...old, ...updates }`): every field
present in the payload overwrites the stored one; `updatedAt` is set. -/
def mergeOrder (o : Order) (u : OrderUpdate) (now : ℚ) : Order :=
  { id := u.id.getD o.id
    userId := u.userId.getD o.userId
    items := u.items.getD o.items
    shippingAddress := u.shippingAddress.getD o.shippingAddress
    shippingMethod := u.shippingMethod.getD o.shippingMethod
    status := u.status.getD o.status
    totals := o.totals
    createdAt := u.createdAt.getD o.createdAt
    updatedAt := some now }

/-- Model of `updateRecord('orders', oid, updates)`: merge into the first order with
the matching id. -/
def updateOrderFirst : List Order → String → OrderUpdate → ℚ → List Order
  | [], _, _, _ => []
  | o :: rest, oid, u, now =>
    if o.id == oid then mergeOrder o u now :: rest
    else o :: updateOrderFirst rest oid u now

/-- Model of `PUT /orders/:id`: reject unknown ids and non-modifiable
orders, otherwise merge the filtered payload. -/
def putOrderStep (db : Database) (oid : String) (u : OrderUpdate) (now : ℚ) :
    Database × Bool :=
  match findOrder db.orders oid with
  | none => (db, false)
  | some o =>
    if canModifyOrder o then
      ({ db with orders := updateOrderFirst db.orders oid (filterOrderUpdates u) now }, true)
    else (db, false)

/-- Model of `PATCH /products/:id/stock` (`productRoutes.ts`):
`updateProductStock(id, req.body.quantity)` writes the raw requested
quantity as the new stock, with no validation of its sign. -/
def stockUpdateStep (db : Database) (pid : String) (quantity : ℚ) : Database × Bool :=
  match findProduct db.products pid with
  | none => (db, false)
  | some p => ({ db with products := setStockFirst db.products p.id quantity }, true)

/-! ## Cart workflow (`src/routes/cartRoutes.ts`) -/

/-- Cart line (`CartItem` in `src/types`). -/
structure CartItem where
  productId : String
  name : Option String
  price : ℚ
  quantity : ℚ
  addedAt : ℚ
deriving DecidableEq

/-- A user's cart (`Cart` in `src/types`). -/
structure Cart where
  id : String
  userId : String
  items : List CartItem
  createdAt : ℚ
  updatedAt : ℚ
deriving DecidableEq

/-- Model of `findCartItem` in `cartRoutes.ts`. -/
def findCartItem (cart : Cart) (pid : String) : Option CartItem :=
  cart.items.find? (fun it => it.productId == pid)

/-- Model of `checkStockAvailable` in `cartRoutes.ts`:
`product.stock >= quantity`. -/
def checkStockAvailable (product : Product) (quantity : ℚ) : Bool :=
  decide (quantity ≤ product.stock)

/-- The assignment `cart.items[itemIndex].quantity = newQuantity` after
`findIndex`: overwrite the quantity of the first line with the matching
product id; `none` when `findIndex` returned `-1`, in which case the TS
assignment throws a `TypeError`. -/
def setCartQtyFirst : List CartItem → String → ℚ → Option (List CartItem)
  | [], _, _ => none
  | it :: rest, pid, q =>
    if it.productId == pid then some ({ it with quantity := q } :: rest)
    else (setCartQtyFirst rest pid q).map (fun l => it :: l)

/-- Model of `updateExistingCartItem` in `cartRoutes.ts` (`none` models the
uncaught `TypeError` at index `-1`). -/
def updateExistingCartItem (cart : Cart) (pid : String) (newQuantity now : ℚ) :
    Option Cart :=
  (setCartQtyFirst cart.items pid newQuantity).map
    (fun items => { cart with items := items, updatedAt := now })

/-- Model of `buildCartItem` in `cartRoutes.ts`. -/
def buildCartItem (product : Product) (quantity now : ℚ) : CartItem :=
  { productId := product.id
    name := some product.name
    price := product.price
    quantity := quantity
    addedAt := now }

/-- Model of `addNewCartItem` in `cartRoutes.ts` (`push` appends). -/
def addNewCartItem (cart : Cart) (product : Product) (quantity now : ℚ) : Cart :=
  { cart with items := cart.items ++ [buildCartItem product quantity now], updatedAt := now }

/-- Model of `addItemToCart` in `cartRoutes.ts`, after the user's cart has
been resolved (the TS first fetches or lazily creates it): merge into an
existing line for the product, otherwise append a new line. -/
def addItemToCart (cart : Cart) (product : Product) (quantity now : ℚ) : Option Cart :=
  match findCartItem cart product.id with
  | some existing => updateExistingCartItem cart product.id (existing.quantity + quantity) now
  | none => some (addNewCartItem cart product quantity now)

/-- Model of `buildEmptyCart` in `cartRoutes.ts`. -/
def buildEmptyCart (userId newCartId : String) (now : ℚ) : Cart :=
  { id := newCartId, userId := userId, items := [], createdAt := now, updatedAt := now }

/-- Model of `removeCartItem` in `cartRoutes.ts` (`filterOutItem`). -/
def removeCartItem (cart : Cart) (pid : String) (now : ℚ) : Cart :=
  { cart with items := cart.items.filter (fun it => it.productId != pid), updatedAt := now }

/-- Write a mutated cart back into the store list (the TS mutates the cart
object held by the `carts` array in place; first match on `userId`). -/
def replaceCartFirst : List Cart → String → Cart → List Cart
  | [], _, _ => []
  | c :: rest, uid, c' =>
    if c.userId == uid then c' :: rest else c :: replaceCartFirst rest uid c'

/-- Model of `PUT /cart/:userId/items/:productId` +
`updateCartItemQuantity`: product check, stock check, then for a positive
quantity the overwrite through `updateExistingCartItem` — `none` models the
uncaught `TypeError` when the cart has no line for the product. -/
def putCartItemStep (products : List Product) (carts : List Cart)
    (userId pid : String) (quantity now : ℚ) (newCartId : String) :
    Option (List Cart × Bool) :=
  match findProduct products pid with
  | none => some (carts, false)
  | some product =>
    if checkStockAvailable product quantity then
      match carts.find? (fun c => c.userId == userId) with
      | none => some (carts ++ [buildEmptyCart userId newCartId now], true)
      | some cart =>
        if quantity ≤ 0 then
          some (replaceCartFirst carts userId (removeCartItem cart pid now), true)
        else
          (updateExistingCartItem cart pid quantity now).map
            (fun c => (replaceCartFirst carts userId c, true))
    else some (carts, false)

/-- A cart has at most one line per product id. -/
def pidsNodup (cart : Cart) : Prop :=
  (cart.items.map (fun it => it.productId)).Nodup

/-! ## Payments (`src/routes/paymentRoutes.ts`) -/

/-- Payment status (`PaymentStatus` in `src/types`). -/
inductive PaymentStatus where
  | pending
  | completed
  | refunded
  | failed
deriving DecidableEq

/-- Stored payment (`Payment` in `src/types`); timestamps in milliseconds. -/
structure Payment where
  id : String
  orderId : String
  amount : ℚ
  status : PaymentStatus
  createdAt : ℚ
  updatedAt : Option ℚ
deriving DecidableEq

/-- Model of `calculateDaysSince`: `Math.floor((now − created) / 86 400 000)`
(`1000 * 60 * 60 * 24` ms per day). -/
def calculateDaysSince (now created : ℚ) : ℤ :=
  ⌊(now - created) / 86400000⌋

/-- Model of `canRefundPayment`: status in `['completed']` and age at most
30 days. -/
def canRefundPayment (now : ℚ) (p : Payment) : Bool :=
  [PaymentStatus.completed].contains p.status &&
    decide (calculateDaysSince now p.createdAt ≤ 30)

/-- The refund amount `processRefund` uses: `amount || payment.amount`
(an absent or zero requested amount falls back to the full amount). -/
def refundAmountOf (p : Payment) (amount : Option ℚ) : ℚ :=
  match amount with
  | none => p.amount
  | some a => if a = 0 then p.amount else a

/-- Model of `updatePaymentStatus`: overwrite status and `updatedAt` of the
first payment with the matching id. -/
def setPaymentStatusFirst : List Payment → String → PaymentStatus → ℚ → List Payment
  | [], _, _, _ => []
  | p :: rest, pid, st, now =>
    if p.id == pid then { p with status := st, updatedAt := some now } :: rest
    else p :: setPaymentStatusFirst rest pid st now

/-- First-match payment lookup (`getPaymentById`). -/
def findPayment (payments : List Payment) (pid : String) : Option Payment :=
  payments.find? (fun p => p.id == pid)

/-- Model of `POST /payments/:id/refund`: look the payment up, check
`canRefundPayment`, check the requested amount against the original one,
and only then mark the payment refunded. -/
def refundStep (now : ℚ) (payments : List Payment) (pid : String)
    (amount : Option ℚ) : List Payment × Bool :=
  match findPayment payments pid with
  | none => (payments, false)
  | some p =>
    if canRefundPayment now p then
      if refundAmountOf p amount > p.amount then (payments, false)
      else (setPaymentStatusFirst payments pid .refunded now, true)
    else (payments, false)

/-! ## Non-negative stock predicate and concrete fixtures for witnesses -/

/-- Every product in the store has non-negative stock. -/
def allStocksNonneg (products : List Product) : Prop :=
  ∀ p ∈ products, 0 ≤ p.stock

/-- Fixture order used by concrete instantiations. -/
def wOrder (oid : String) (st : OrderStatus) : Order :=
  { id := oid
    userId := "u1"
    items := [⟨"p1", none, 10, 2, some 1, none⟩]
    shippingAddress := ⟨"1 Main St", "Springfield", "11111"⟩
    shippingMethod := "standard"
    status := st
    totals := ⟨0, 0, 0, 0, 0⟩
    createdAt := 0
    updatedAt := none }

/-- Fixture product list: one product with stock 5. -/
def wProducts : List Product :=
  [{ id := "p1", name := "Widget", price := 10, categoryId := "c1", stock := 5 }]

/-- Fixture database with one shipped order. -/
def wDbShipped : Database := { products := wProducts, orders := [wOrder "o1" .shipped] }

/-- Fixture database with one pending order. -/
def wDbPending : Database := { products := wProducts, orders := [wOrder "o1" .pending] }

/-- Fixture order-creation request (passes field validation). -/
def wReq : OrderRequest :=
  { userId := some "u1"
    items := [⟨"p1", some "ignored", 999, 2, some 1, none⟩]
    shippingAddress := some ⟨"1 Main St", "Springfield", "11111"⟩
    shippingMethod := none }

/-- Fixture request whose single item exceeds the available stock. -/
def wReqTooMany : OrderRequest :=
  { userId := some "u1"
    items := [⟨"p1", none, 10, 6, none, none⟩]
    shippingAddress := some ⟨"1 Main St", "Springfield", "11111"⟩
    shippingMethod := none }

/-- Fixture database with no orders. -/
def wDbNoOrders : Database := { products := wProducts, orders := [] }

/-- Fixture update payload that tries to smuggle a status change. -/
def wUpd : OrderUpdate :=
  { id := some "evil"
    userId := none
    items := none
    shippingAddress := none
    shippingMethod := none
    status := some .delivered
    createdAt := some 999 }

/-- Fixture cart with one line for product `p1`. -/
def wCart : Cart :=
  { id := "cart1"
    userId := "u1"
    items := [⟨"p1", some "Widget", 10, 1, 0⟩]
    createdAt := 0
    updatedAt := 0 }

/-- Fixture payment, completed, created at epoch 0. -/
def wPayment : Payment :=
  { id := "pay1"
    orderId := "o1"
    amount := 100
    status := .completed
    createdAt := 0
    updatedAt := none }

/-! ## Pricing engine theorems (claim C1) -/

lemma applyDiscount_eq (price : ℚ) (d : Option ℚ) :
    applyDiscount price d = price - price * d.getD 0 / 100 := by
  cases d with
  | none => simp [applyDiscount]
  | some x =>
    by_cases hx : x = 0 <;> simp [applyDiscount, hx]

lemma calculateItemTotal_eq (item : OrderItem) :
    calculateItemTotal item =
      (item.price - item.price * (item.discountPercent.getD 0) / 100) *
        (if item.quantity = 0 then 1 else item.quantity) := by
  unfold calculateItemTotal
  rw [applyDiscount_eq]

lemma foldl_add_eq_sum (f : OrderItem → ℚ) (items : List OrderItem) (a : ℚ) :
    items.foldl (fun sum item => sum + f item) a = a + (items.map f).sum := by
  induction items generalizing a with
  | nil => simp
  | cons it rest ih => simp [List.foldl_cons, ih, add_assoc]

lemma calculateSubtotal_eq (items : List OrderItem) :
    calculateSubtotal items = amendedSubtotal items := by
  unfold calculateSubtotal amendedSubtotal
  rw [foldl_add_eq_sum, zero_add]
  congr 1
  exact List.map_congr_left (fun item _ => calculateItemTotal_eq item)

lemma calculateTotalWeight_eq (items : List OrderItem) :
    calculateTotalWeight items = amendedWeight items := by
  unfold calculateTotalWeight amendedWeight
  rw [foldl_add_eq_sum, zero_add]

/-- Evaluation helper for `roundToDecimals _ 2` at concrete values. -/
lemma round2_eq (x c : ℚ) (n : ℤ) (h1 : (n : ℚ) ≤ x * 10 ^ (2 : ℕ) + 1 / 2)
    (h2 : x * 10 ^ (2 : ℕ) + 1 / 2 < (n : ℚ) + 1)
    (hc : (n : ℚ) / 10 ^ (2 : ℕ) = c) :
    roundToDecimals x 2 = c := by
  unfold roundToDecimals
  rw [Int.floor_eq_iff.mpr ⟨h1, h2⟩]
  exact hc

/-- Rounding to two decimals is idempotent. -/
lemma roundToDecimals_idem (x : ℚ) :
    roundToDecimals (roundToDecimals x 2) 2 = roundToDecimals x 2 := by
  have h0 : ⌊(1 : ℚ) / 2⌋ = 0 := Int.floor_eq_iff.mpr (by norm_num)
  apply round2_eq _ _ ⌊x * 10 ^ (2 : ℕ) + 1 / 2⌋ _ _ rfl
  · rw [roundToDecimals, div_mul_cancel₀ _ (by norm_num : ((10 : ℚ) ^ (2 : ℕ)) ≠ 0)]
    norm_num
  · rw [roundToDecimals, div_mul_cancel₀ _ (by norm_num : ((10 : ℚ) ^ (2 : ℕ)) ≠ 0)]
    norm_num

/-- Claim C1 as stated is refuted at a single line item with quantity `0`:
the code bills it as quantity `1` (`item.quantity || 1`), so the computed
subtotal is `10`, not the claimed `0`. -/
theorem C1_counterexample :
    (calculateTotal [⟨"P1", none, 10, 0, none, none⟩]).subtotal = 10 ∧
    claimedSubtotal [⟨"P1", none, 10, 0, none, none⟩] = 0 := by
  constructor
  · have h : (calculateTotal [⟨"P1", none, 10, 0, none, none⟩]).subtotal =
        formatPriceVal (calculateSubtotal [⟨"P1", none, 10, 0, none, none⟩]) := rfl
    have hs : calculateSubtotal [⟨"P1", none, 10, 0, none, none⟩] = 10 := by
      norm_num [calculateSubtotal, calculateItemTotal, applyDiscount]
    rw [h, hs, formatPriceVal]
    exact round2_eq _ _ 1000 (by norm_num) (by norm_num) (by norm_num)
  · norm_num [claimedSubtotal]

/-- Claim C1 (amended): `calculateTotal` computes, for every item list,
subtotal `Σ (price − price·discount/100) · q'` where a zero quantity is
billed as `1`; tax `round(subtotal × 0.08, 2)`; shipping
`round(5.99 + 0.5·Σ weight', 2)` where an absent or zero weight counts as
`0.5`; and a raw grand total `subtotal + tax + shipping` with no further
rounding.  The single item `{price = 10, quantity = 2, weight = 1}` yields
subtotal `20`, tax `1.60`, shipping `6.49`, raw total `28.09`. -/
theorem C1_pricing_engine :
    (∀ items : List OrderItem,
      (calculateTotal items).rawTotal =
        amendedSubtotal items +
          roundToDecimals (amendedSubtotal items * 0.08) 2 +
          roundToDecimals (5.99 + amendedWeight items * 0.5) 2 ∧
      (calculateTotal items).subtotal = roundToDecimals (amendedSubtotal items) 2 ∧
      (calculateTotal items).tax = roundToDecimals (amendedSubtotal items * 0.08) 2 ∧
      (calculateTotal items).shipping = roundToDecimals (5.99 + amendedWeight items * 0.5) 2) ∧
    calculateTotal [⟨"P1", none, 10, 2, some 1, none⟩] =
      { subtotal := 20, tax := 1.6, shipping := 6.49, total := 28.09, rawTotal := 28.09 } := by
  constructor
  · intro items
    refine ⟨?_, ?_, ?_, ?_⟩
    · show calculateSubtotal items + calculateTax (calculateSubtotal items) +
          calculateShippingCost items = _
      unfold calculateTax calculateShippingCost
      rw [calculateSubtotal_eq, calculateTotalWeight_eq]
    · show formatPriceVal (calculateSubtotal items) = _
      unfold formatPriceVal
      rw [calculateSubtotal_eq]
    · show formatPriceVal (calculateTax (calculateSubtotal items)) = _
      unfold formatPriceVal calculateTax
      rw [roundToDecimals_idem, calculateSubtotal_eq]
    · show formatPriceVal (calculateShippingCost items) = _
      unfold formatPriceVal calculateShippingCost
      rw [roundToDecimals_idem, calculateTotalWeight_eq]
  · have hs : calculateSubtotal [⟨"P1", none, 10, 2, some 1, none⟩] = 20 := by
      norm_num [calculateSubtotal, calculateItemTotal, applyDiscount]
    have hw : calculateTotalWeight [⟨"P1", none, 10, 2, some 1, none⟩] = 1 := by
      norm_num [calculateTotalWeight, itemWeight]
    have htax : calculateTax 20 = 1.6 := by
      unfold calculateTax
      exact round2_eq _ _ 160 (by norm_num) (by norm_num) (by norm_num)
    have hship : calculateShippingCost [⟨"P1", none, 10, 2, some 1, none⟩] = 6.49 := by
      unfold calculateShippingCost
      rw [hw]
      exact round2_eq _ _ 649 (by norm_num) (by norm_num) (by norm_num)
    show OrderTotals.mk (formatPriceVal (calculateSubtotal _))
        (formatPriceVal (calculateTax (calculateSubtotal _)))
        (formatPriceVal (calculateShippingCost _))
        (formatPriceVal (calculateSubtotal _ + calculateTax (calculateSubtotal _) +
          calculateShippingCost _))
        (calculateSubtotal _ + calculateTax (calculateSubtotal _) +
          calculateShippingCost _) = _
    rw [hs, htax, hship]
    simp only [OrderTotals.mk.injEq, formatPriceVal]
    refine ⟨?_, ?_, ?_, ?_, by norm_num⟩
    · exact round2_eq _ _ 2000 (by norm_num) (by norm_num) (by norm_num)
    · exact round2_eq _ _ 160 (by norm_num) (by norm_num) (by norm_num)
    · exact round2_eq _ _ 649 (by norm_num) (by norm_num) (by norm_num)
    · exact round2_eq _ _ 2809 (by norm_num) (by norm_num) (by norm_num)

/-! ## Store lemmas -/

lemma findProduct_some_id {products : List Product} {pid : String} {p : Product}
    (h : findProduct products pid = some p) : p.id = pid := by
  have h' : products.find? (fun q => q.id == pid) = some p := h
  simpa using List.find?_some h'

lemma findProduct_mem {products : List Product} {pid : String} {p : Product}
    (h : findProduct products pid = some p) : p ∈ products := by
  have h' : products.find? (fun q => q.id == pid) = some p := h
  exact List.mem_of_find?_eq_some h'

lemma getStock_cons (p : Product) (rest : List Product) (pid : String) :
    getStock (p :: rest) pid = if p.id = pid then some p.stock else getStock rest pid := by
  by_cases h : p.id = pid
  · have hf : (p :: rest).find? (fun q => q.id == pid) = some p :=
      List.find?_cons_of_pos rest (by simp [h])
    simp [getStock, findProduct, hf, h]
  · have hf : (p :: rest).find? (fun q => q.id == pid) = rest.find? (fun q => q.id == pid) :=
      List.find?_cons_of_neg rest (by simp [h])
    simp [getStock, findProduct, hf, h]

lemma getStock_setStockFirst (pid : String) (v : ℚ) :
    ∀ (products : List Product) (pid' : String),
      getStock (setStockFirst products pid v) pid' =
        if pid' = pid then (getStock products pid).map (fun _ => v)
        else getStock products pid' := by
  intro products
  induction products with
  | nil =>
    intro pid'
    by_cases h : pid' = pid <;> simp [setStockFirst, getStock, findProduct, h]
  | cons p rest ih =>
    intro pid'
    by_cases hp : p.id = pid
    · have hsf : setStockFirst (p :: rest) pid v = { p with stock := v } :: rest := by
        simp [setStockFirst, hp]
      rw [hsf]
      simp only [getStock_cons]
      by_cases h' : pid' = pid
      · subst h'
        simp [hp]
      · have hne : ¬ p.id = pid' := by rw [hp]; exact fun hh => h' hh.symm
        simp [hne, h']
    · have hsf : setStockFirst (p :: rest) pid v = p :: setStockFirst rest pid v := by
        simp [setStockFirst, hp]
      rw [hsf]
      simp only [getStock_cons]
      by_cases h' : pid' = pid
      · subst h'
        simp [hp, ih]
      · simp [h', ih]

lemma getStock_adjust1 (f : ℚ → ℚ → ℚ) (products : List Product)
    (item : OrderItem) (pid : String) :
    getStock (adjustProductStock1 f products item) pid =
      if item.productId = pid
      then (getStock products pid).map (fun s => f s item.quantity)
      else getStock products pid := by
  unfold adjustProductStock1
  cases hf : findProduct products item.productId with
  | none =>
    have hn : getStock products item.productId = none := by simp [getStock, hf]
    by_cases h : item.productId = pid
    · subst h; simp [hn]
    · simp [h]
  | some p =>
    have hpid : p.id = item.productId := findProduct_some_id hf
    have hs : getStock products item.productId = some p.stock := by simp [getStock, hf]
    rw [getStock_setStockFirst, hpid]
    by_cases h : item.productId = pid
    · subst h; simp [hs]
    · simp [h, Ne.symm h]

lemma getStock_updateProductStock (items : List OrderItem) :
    ∀ (products : List Product) (pid : String),
      getStock (updateProductStock products items) pid =
        (getStock products pid).map (fun s => s - qtySum items pid) := by
  induction items with
  | nil =>
    intro products pid
    cases h : getStock products pid <;> simp [updateProductStock, qtySum, h]
  | cons item rest ih =>
    intro products pid
    have hstep : updateProductStock products (item :: rest) =
        updateProductStock (adjustProductStock1 (fun s q => s - q) products item) rest := rfl
    rw [hstep, ih, getStock_adjust1]
    by_cases h : item.productId = pid
    · cases hg : getStock products pid with
      | none => simp [qtySum, h, hg]
      | some s => simp [qtySum, h, hg, sub_sub]
    · simp [qtySum, h]

lemma getStock_restoreProductStock (items : List OrderItem) :
    ∀ (products : List Product) (pid : String),
      getStock (restoreProductStock products items) pid =
        (getStock products pid).map (fun s => s + qtySum items pid) := by
  induction items with
  | nil =>
    intro products pid
    cases h : getStock products pid <;> simp [restoreProductStock, qtySum, h]
  | cons item rest ih =>
    intro products pid
    have hstep : restoreProductStock products (item :: rest) =
        restoreProductStock (adjustProductStock1 (fun s q => s + q) products item) rest := rfl
    rw [hstep, ih, getStock_adjust1]
    by_cases h : item.productId = pid
    · cases hg : getStock products pid with
      | none => simp [qtySum, h, hg]
      | some s => simp [qtySum, h, hg, add_assoc]
    · simp [qtySum, h]

lemma getStock_roundTrip (products : List Product) (items : List OrderItem)
    (pid : String) :
    getStock (restoreProductStock (updateProductStock products items) items) pid =
      getStock products pid := by
  rw [getStock_restoreProductStock, getStock_updateProductStock]
  cases h : getStock products pid <;> simp [h]

lemma enrichOrderItems_fields (products : List Product) (items : List OrderItem) :
    ∀ it' ∈ enrichOrderItems products items,
      ∃ it ∈ items, it'.productId = it.productId ∧ it'.quantity = it.quantity := by
  intro it' h'
  obtain ⟨it, hit, rfl⟩ := List.mem_map.mp h'
  refine ⟨it, hit, ?_, ?_⟩ <;>
    cases hf : findProduct products it.productId <;> simp [hf]

lemma enrich_map_productId (products : List Product) (items : List OrderItem) :
    (enrichOrderItems products items).map (fun it => it.productId) =
      items.map (fun it => it.productId) := by
  unfold enrichOrderItems
  rw [List.map_map]
  apply List.map_congr_left
  intro it _
  cases hf : findProduct products it.productId <;> simp [hf]

lemma qtySum_enrich (products : List Product) (items : List OrderItem)
    (pid : String) :
    qtySum (enrichOrderItems products items) pid = qtySum items pid := by
  induction items with
  | nil => rfl
  | cons it rest ih =>
    unfold enrichOrderItems at ih ⊢
    simp only [List.map_cons, qtySum]
    rw [ih]
    cases hf : findProduct products it.productId <;> simp [hf]

lemma validateStock_iff (products : List Product) (items : List OrderItem) :
    validateStockAvailability products items = true ↔
      ∀ item ∈ items, ∃ p, findProduct products item.productId = some p ∧
        ¬ p.stock < item.quantity := by
  induction items with
  | nil => simp [validateStockAvailability]
  | cons item rest ih =>
    cases hf : findProduct products item.productId with
    | none => simp [validateStockAvailability, hf]
    | some p =>
      simp only [validateStockAvailability, hf]
      by_cases hlt : p.stock < item.quantity
      · rw [if_pos hlt, List.forall_mem_cons]
        constructor
        · intro h
          simp at h
        · rintro ⟨⟨p', hp', hnlt⟩, -⟩
          rw [hf, Option.some_inj] at hp'
          subst hp'
          exact (hnlt hlt).elim
      · rw [if_neg hlt, ih, List.forall_mem_cons]
        exact ⟨fun hr => ⟨⟨p, hf, hlt⟩, hr⟩, fun hc => hc.2⟩

lemma allStocksNonneg_setStockFirst (pid : String) (v : ℚ) (hv : 0 ≤ v) :
    ∀ products, allStocksNonneg products → allStocksNonneg (setStockFirst products pid v) := by
  intro products
  induction products with
  | nil => intro h; simpa [setStockFirst] using h
  | cons p rest ih =>
    intro h
    have hrest : allStocksNonneg rest := fun r hr => h r (List.mem_cons_of_mem _ hr)
    by_cases hp : p.id = pid
    · intro q hq
      rw [show setStockFirst (p :: rest) pid v = { p with stock := v } :: rest from by
        simp [setStockFirst, hp]] at hq
      rcases List.mem_cons.mp hq with hq | hq
      · rw [hq]; exact hv
      · exact hrest q hq
    · intro q hq
      rw [show setStockFirst (p :: rest) pid v = p :: setStockFirst rest pid v from by
        simp [setStockFirst, hp]] at hq
      rcases List.mem_cons.mp hq with hq | hq
      · rw [hq]; exact h p (List.mem_cons_self _ _)
      · exact ih hrest q hq

lemma allStocksNonneg_adjust_add (products : List Product) (item : OrderItem)
    (h : allStocksNonneg products) (hq : 0 ≤ item.quantity) :
    allStocksNonneg (adjustProductStock1 (fun s q => s + q) products item) := by
  unfold adjustProductStock1
  cases hf : findProduct products item.productId with
  | none => exact h
  | some p =>
    have hp := h p (findProduct_mem hf)
    exact allStocksNonneg_setStockFirst _ _ (add_nonneg hp hq) products h

lemma restoreProductStock_nonneg (items : List OrderItem) :
    ∀ products, allStocksNonneg products → (∀ it ∈ items, 0 ≤ it.quantity) →
      allStocksNonneg (restoreProductStock products items) := by
  induction items with
  | nil => intro products h _; simpa [restoreProductStock] using h
  | cons it rest ih =>
    intro products h hq
    have hstep : restoreProductStock products (it :: rest) =
        restoreProductStock (adjustProductStock1 (fun s q => s + q) products it) rest := rfl
    rw [hstep]
    exact ih _ (allStocksNonneg_adjust_add products it h (hq it (List.mem_cons_self _ _)))
      (fun x hx => hq x (List.mem_cons_of_mem _ hx))

lemma updateProductStock_nonneg (items : List OrderItem) :
    ∀ products, allStocksNonneg products →
      (∀ it ∈ items, ∃ s, getStock products it.productId = some s ∧ it.quantity ≤ s) →
      (items.map (fun it => it.productId)).Nodup →
      allStocksNonneg (updateProductStock products items) := by
  induction items with
  | nil => intro products h _ _; simpa [updateProductStock] using h
  | cons it rest ih =>
    intro products h hval hnd
    obtain ⟨s, hs, hqs⟩ := hval it (List.mem_cons_self _ _)
    have hnd' : (rest.map (fun x => x.productId)).Nodup := (List.nodup_cons.mp hnd).2
    have hnotin : it.productId ∉ rest.map (fun x => x.productId) := (List.nodup_cons.mp hnd).1
    have hstep_nonneg :
        allStocksNonneg (adjustProductStock1 (fun s q => s - q) products it) := by
      unfold adjustProductStock1
      cases hf : findProduct products it.productId with
      | none => exact h
      | some p =>
        have hps : p.stock = s := by
          have hgs : getStock products it.productId = some p.stock := by
            simp [getStock, hf]
          rw [hgs] at hs
          exact Option.some_inj.mp hs
        apply allStocksNonneg_setStockFirst _ _ _ products h
        show 0 ≤ p.stock - it.quantity
        rw [hps]
        linarith
    have hval' : ∀ it' ∈ rest,
        ∃ s', getStock (adjustProductStock1 (fun s q => s - q) products it) it'.productId =
          some s' ∧ it'.quantity ≤ s' := by
      intro it' hmem
      obtain ⟨s', hs', hq'⟩ := hval it' (List.mem_cons_of_mem _ hmem)
      have hne : ¬ it.productId = it'.productId := by
        intro heq
        exact hnotin (heq ▸ List.mem_map_of_mem _ hmem)
      rw [getStock_adjust1, if_neg hne]
      exact ⟨s', hs', hq'⟩
    have hstep : updateProductStock products (it :: rest) =
        updateProductStock (adjustProductStock1 (fun s q => s - q) products it) rest := rfl
    rw [hstep]
    exact ih _ hstep_nonneg hval' hnd'

lemma findOrder_cons (o : Order) (rest : List Order) (oid : String) :
    findOrder (o :: rest) oid = if o.id = oid then some o else findOrder rest oid := by
  by_cases h : o.id = oid
  · have hf : (o :: rest).find? (fun q => q.id == oid) = some o :=
      List.find?_cons_of_pos rest (by simp [h])
    simp [findOrder, hf, h]
  · have hf : (o :: rest).find? (fun q => q.id == oid) = rest.find? (fun q => q.id == oid) :=
      List.find?_cons_of_neg rest (by simp [h])
    simp [findOrder, hf, h]

lemma findOrder_append_fresh (ord : Order) :
    ∀ pre : List Order, (∀ o ∈ pre, o.id ≠ ord.id) →
      findOrder (pre ++ [ord]) ord.id = some ord := by
  intro pre
  induction pre with
  | nil => intro _; simp [findOrder_cons]
  | cons p rest ih =>
    intro h
    rw [List.cons_append, findOrder_cons, if_neg (h p (List.mem_cons_self _ _))]
    exact ih (fun o ho => h o (List.mem_cons_of_mem _ ho))

lemma setOrderStatusFirst_append_fresh (ord : Order) (st : OrderStatus) (now : ℚ) :
    ∀ pre : List Order, (∀ o ∈ pre, o.id ≠ ord.id) →
      setOrderStatusFirst (pre ++ [ord]) ord.id st now =
        pre ++ [{ ord with status := st, updatedAt := some now }] := by
  intro pre
  induction pre with
  | nil => simp [setOrderStatusFirst]
  | cons p rest ih =>
    intro h
    rw [List.cons_append, List.cons_append]
    have hne : (p.id == ord.id) = false := by
      simp [h p (List.mem_cons_self _ _)]
    simp only [setOrderStatusFirst, hne, Bool.false_eq_true, if_false]
    rw [ih (fun o ho => h o (List.mem_cons_of_mem _ ho))]

lemma findOrder_updateOrderFirst (oid : String) (u : OrderUpdate) (now : ℚ)
    (hid : u.id = none) :
    ∀ os : List Order,
      findOrder (updateOrderFirst os oid u now) oid =
        (findOrder os oid).map (fun o => mergeOrder o u now) := by
  intro os
  induction os with
  | nil => simp [updateOrderFirst, findOrder]
  | cons o rest ih =>
    by_cases h : o.id = oid
    · have hmid : (mergeOrder o u now).id = o.id := by simp [mergeOrder, hid]
      have hu : updateOrderFirst (o :: rest) oid u now = mergeOrder o u now :: rest := by
        simp [updateOrderFirst, h]
      rw [hu, findOrder_cons, findOrder_cons, hmid, if_pos h, if_pos h]
      rfl
    · have hu : updateOrderFirst (o :: rest) oid u now =
          o :: updateOrderFirst rest oid u now := by
        simp [updateOrderFirst, h]
      rw [hu, findOrder_cons, findOrder_cons, if_neg h, if_neg h, ih]

/-! ## Order lifecycle theorems -/

lemma canCancelOrder_iff (o : Order) :
    canCancelOrder o = true ↔
      (o.status = .pending ∨ o.status = .confirmed ∨ o.status = .processing) := by
  unfold canCancelOrder
  cases h : o.status <;> decide

lemma canModifyOrder_iff (o : Order) :
    canModifyOrder o = true ↔ (o.status = .pending ∨ o.status = .confirmed) := by
  unfold canModifyOrder
  cases h : o.status <;> decide

lemma cancelStep_accepted (db : Database) (oid : String) (now : ℚ) (o : Order)
    (hf : findOrder db.orders oid = some o) :
    (cancelOrderStep db oid now).2 = canCancelOrder o := by
  unfold cancelOrderStep
  rw [hf]
  by_cases hc : canCancelOrder o <;> simp [hc]

/-- Claim C2: `isValidStatusTransition` accepts exactly the pairs of the
specification's transition table, and the status route leaves the store
unchanged on a rejected pair (and writes only the status on an accepted
one). -/
theorem C2_transition_table :
    (∀ cur nxt : OrderStatus,
      isValidStatusTransition cur nxt = true ↔ (cur, nxt) ∈ claimedTransitionPairs) ∧
    (∀ (db : Database) (oid : String) (nxt : OrderStatus) (now : ℚ) (o : Order),
      findOrder db.orders oid = some o →
      isValidStatusTransition o.status nxt = false →
      statusUpdateStep db oid nxt now = (db, false)) ∧
    (∀ (db : Database) (oid : String) (nxt : OrderStatus) (now : ℚ) (o : Order),
      findOrder db.orders oid = some o →
      isValidStatusTransition o.status nxt = true →
      statusUpdateStep db oid nxt now =
        ({ db with orders := setOrderStatusFirst db.orders oid nxt now }, true)) := by
  refine ⟨?_, ?_, ?_⟩
  · intro cur nxt
    cases cur <;> cases nxt <;> decide
  · intro db oid nxt now o hf hinv
    unfold statusUpdateStep
    rw [hf]
    simp [hinv]
  · intro db oid nxt now o hf hval
    unfold statusUpdateStep
    rw [hf]
    simp [hval]

/-- Claim C2 witness: a shipped order cannot be cancelled through the
status route, and the store is unchanged. -/
theorem C2_witness :
    statusUpdateStep wDbShipped "o1" .cancelled 0 = (wDbShipped, false) :=
  C2_transition_table.2.1 wDbShipped "o1" .cancelled 0 (wOrder "o1" .shipped) rfl rfl

/-- Claim C3: cancellation is accepted exactly from
`pending`/`confirmed`/`processing` (rejections leave the store unchanged),
and cancelling a freshly created order marks it cancelled and restores
every product stock to its pre-creation value; a second cancel attempt is
rejected without further changes. -/
theorem C3_cancel_restores_stock :
    (∀ (db : Database) (oid : String) (now : ℚ) (o : Order),
      findOrder db.orders oid = some o →
      (((cancelOrderStep db oid now).2 = true) ↔
        (o.status = .pending ∨ o.status = .confirmed ∨ o.status = .processing)) ∧
      (canCancelOrder o = false → cancelOrderStep db oid now = (db, false))) ∧
    (∀ (db : Database) (req : OrderRequest) (nid : String) (now now' now'' : ℚ)
      (db₁ : Database) (ord : Order),
      (∀ o ∈ db.orders, o.id ≠ nid) →
      createOrderStep db req nid now = (db₁, some ord) →
      (cancelOrderStep db₁ nid now').2 = true ∧
      (findOrder (cancelOrderStep db₁ nid now').1.orders nid).map (fun o => o.status) =
        some .cancelled ∧
      (∀ pid, getStock (cancelOrderStep db₁ nid now').1.products pid =
        getStock db.products pid) ∧
      cancelOrderStep (cancelOrderStep db₁ nid now').1 nid now'' =
        ((cancelOrderStep db₁ nid now').1, false)) := by
  constructor
  · intro db oid now o hf
    constructor
    · rw [cancelStep_accepted db oid now o hf]
      exact canCancelOrder_iff o
    · intro hc
      unfold cancelOrderStep
      rw [hf]
      simp [hc]
  · intro db req nid now now' now'' db₁ ord hfresh hcreate
    unfold createOrderStep at hcreate
    by_cases hv : validateOrderB req
    case neg => rw [if_neg hv] at hcreate; simp at hcreate
    rw [if_pos hv] at hcreate
    by_cases hs : validateStockAvailability db.products req.items
    case neg => rw [if_neg hs] at hcreate; simp at hcreate
    rw [if_pos hs] at hcreate
    have h1 := congrArg Prod.fst hcreate
    have h2 := congrArg Prod.snd hcreate
    dsimp only at h1 h2
    have hord : ord = buildOrderObject db.products req nid now :=
      (Option.some_inj.mp h2).symm
    subst hord
    subst h1
    have hfresh' : ∀ o ∈ db.orders, o.id ≠ (buildOrderObject db.products req nid now).id :=
      fun o ho => hfresh o ho
    have hfind₁ : findOrder (db.orders ++ [buildOrderObject db.products req nid now]) nid =
        some (buildOrderObject db.products req nid now) :=
      findOrder_append_fresh (buildOrderObject db.products req nid now) db.orders hfresh'
    have hcan : canCancelOrder (buildOrderObject db.products req nid now) = true := rfl
    have hcancel : cancelOrderStep
        { products := updateProductStock db.products
            (buildOrderObject db.products req nid now).items,
          orders := db.orders ++ [buildOrderObject db.products req nid now] }
        nid now' =
        ({ products := restoreProductStock
              (updateProductStock db.products (buildOrderObject db.products req nid now).items)
              (buildOrderObject db.products req nid now).items,
           orders := setOrderStatusFirst
              (db.orders ++ [buildOrderObject db.products req nid now]) nid .cancelled now' },
         true) := by
      unfold cancelOrderStep
      dsimp only
      rw [hfind₁]
      dsimp only
      rw [if_pos hcan]
    have hsetstatus : setOrderStatusFirst
        (db.orders ++ [buildOrderObject db.products req nid now]) nid .cancelled now' =
        db.orders ++ [{ buildOrderObject db.products req nid now with
          status := .cancelled, updatedAt := some now' }] :=
      setOrderStatusFirst_append_fresh (buildOrderObject db.products req nid now)
        .cancelled now' db.orders hfresh'
    have hfind₂ : findOrder (db.orders ++ [{ buildOrderObject db.products req nid now with
          status := OrderStatus.cancelled, updatedAt := some now' }]) nid =
        some { buildOrderObject db.products req nid now with
          status := OrderStatus.cancelled, updatedAt := some now' } :=
      findOrder_append_fresh _ db.orders hfresh'
    refine ⟨?_, ?_, ?_, ?_⟩
    · rw [hcancel]
    · rw [hcancel]
      dsimp only
      rw [hsetstatus, hfind₂]
      rfl
    · intro pid
      rw [hcancel]
      dsimp only
      exact getStock_roundTrip db.products (buildOrderObject db.products req nid now).items pid
    · rw [hcancel]
      dsimp only
      unfold cancelOrderStep
      dsimp only
      rw [hsetstatus, hfind₂]
      dsimp only
      have hcan₂ : canCancelOrder { buildOrderObject db.products req nid now with
          status := OrderStatus.cancelled, updatedAt := some now' } = false := rfl
      rw [if_neg (by simp [hcan₂])]

/-- Claim C3 witness: create an order for two widgets (stock 5 → 3), cancel
it, and observe acceptance and the restored stock. -/
theorem C3_witness :
    (cancelOrderStep (createOrderStep wDbNoOrders wReq "o1" 0).1 "o1" 1).2 = true ∧
    getStock (cancelOrderStep (createOrderStep wDbNoOrders wReq "o1" 0).1 "o1" 1).1.products
      "p1" = some 5 := by
  have h := C3_cancel_restores_stock.2 wDbNoOrders wReq "o1" 0 1 2
    (createOrderStep wDbNoOrders wReq "o1" 0).1
    (buildOrderObject wDbNoOrders.products wReq "o1" 0)
    (by intro o ho; simp [wDbNoOrders] at ho)
    rfl
  refine ⟨h.1, ?_⟩
  rw [h.2.2.1 "p1"]
  rfl

/-- Claim C4: for a field-valid request, the stock scan succeeds exactly
when every item references an existing product with stock at least the
requested quantity; on a failed scan nothing is mutated, and on a
successful scan the order is appended and each product stock drops by the
total requested quantity. -/
theorem C4_create_validates_before_mutating :
    ∀ (db : Database) (req : OrderRequest) (nid : String) (now : ℚ),
      validateOrderB req = true →
      (validateStockAvailability db.products req.items = true ↔
        ∀ item ∈ req.items, ∃ p, findProduct db.products item.productId = some p ∧
          ¬ p.stock < item.quantity) ∧
      (validateStockAvailability db.products req.items = false →
        createOrderStep db req nid now = (db, none)) ∧
      (validateStockAvailability db.products req.items = true →
        (createOrderStep db req nid now).1.orders =
          db.orders ++ [buildOrderObject db.products req nid now] ∧
        (createOrderStep db req nid now).2 =
          some (buildOrderObject db.products req nid now) ∧
        ∀ pid, getStock (createOrderStep db req nid now).1.products pid =
          (getStock db.products pid).map (fun s => s - qtySum req.items pid)) := by
  intro db req nid now hval
  refine ⟨validateStock_iff db.products req.items, ?_, ?_⟩
  · intro hsf
    unfold createOrderStep
    rw [if_pos hval, if_neg (by simp [hsf])]
  · intro hst
    unfold createOrderStep
    rw [if_pos hval, if_pos hst]
    refine ⟨rfl, rfl, ?_⟩
    intro pid
    show getStock (updateProductStock db.products
        (enrichOrderItems db.products req.items)) pid = _
    rw [getStock_updateProductStock, qtySum_enrich]

/-- Claim C4 witness: one item requesting 6 widgets against stock 5 makes
creation fail with the store untouched. -/
theorem C4_witness :
    createOrderStep wDbNoOrders wReqTooMany "o9" 0 = (wDbNoOrders, none) :=
  (C4_create_validates_before_mutating wDbNoOrders wReqTooMany "o9" 0 rfl).2.1 rfl

/-- Claim C5 counterexample: the generic update does NOT strip `status`:
updating a pending order with a payload carrying `status := delivered`
changes the stored status. -/
theorem C5_counterexample :
    (findOrder (putOrderStep wDbPending "o1" wUpd 1).1.orders "o1").map (fun o => o.status) =
      some .delivered ∧
    (findOrder wDbPending.orders "o1").map (fun o => o.status) = some .pending := by
  constructor <;> rfl

/-- Claim C5 (amended): the generic update is permitted exactly from
`pending`/`confirmed` and rejections leave the store unchanged; the filter
strips only `id` and `createdAt`, so those fields survive any payload, but
`status` is NOT stripped: a payload status overwrites the stored status,
bypassing the transition table. -/
theorem C5_generic_update :
    ∀ (db : Database) (oid : String) (u : OrderUpdate) (now : ℚ) (o : Order),
      findOrder db.orders oid = some o →
      (((putOrderStep db oid u now).2 = true) ↔
        (o.status = .pending ∨ o.status = .confirmed)) ∧
      ((putOrderStep db oid u now).2 = false → putOrderStep db oid u now = (db, false)) ∧
      ((putOrderStep db oid u now).2 = true →
        findOrder (putOrderStep db oid u now).1.orders oid =
          some { o with userId := u.userId.getD o.userId,
                        items := u.items.getD o.items,
                        shippingAddress := u.shippingAddress.getD o.shippingAddress,
                        shippingMethod := u.shippingMethod.getD o.shippingMethod,
                        status := u.status.getD o.status,
                        updatedAt := some now }) := by
  intro db oid u now o hf
  have hacc : (putOrderStep db oid u now).2 = canModifyOrder o := by
    unfold putOrderStep
    rw [hf]
    by_cases hc : canModifyOrder o <;> simp [hc]
  refine ⟨?_, ?_, ?_⟩
  · rw [hacc]
    exact canModifyOrder_iff o
  · intro hfalse
    rw [hacc] at hfalse
    unfold putOrderStep
    rw [hf]
    simp [hfalse]
  · intro htrue
    rw [hacc] at htrue
    unfold putOrderStep
    rw [hf]
    simp only [htrue, if_true]
    rw [findOrder_updateOrderFirst oid (filterOrderUpdates u) now rfl db.orders, hf]
    rfl

/-- Claim C5 witness: the pending fixture order is updatable. -/
theorem C5_witness :
    (putOrderStep wDbPending "o1" wUpd 1).2 = true :=
  (C5_generic_update wDbPending "o1" wUpd 1 (wOrder "o1" .pending) rfl).1.mpr (Or.inl rfl)

/-- Claim C6 counterexample: the stock endpoint writes the raw requested
quantity, so a request of `-1` drives a non-negative store negative. -/
theorem C6_counterexample :
    allStocksNonneg wDbShipped.products ∧
    getStock (stockUpdateStep wDbShipped "p1" (-1)).1.products "p1" = some (-1) := by
  constructor
  · unfold allStocksNonneg
    decide
  · rfl

/-- Claim C6 (amended): `stock ≥ 0` is not an invariant of every public
operation (the stock endpoint and the generic product update write
arbitrary values, and creation with repeated product ids can overdraw), but
it is preserved by order creation whose items reference pairwise-distinct
products and by cancellation of orders with non-negative item
quantities. -/
theorem C6_stock_nonneg_amended :
    (∀ (db : Database) (req : OrderRequest) (nid : String) (now : ℚ),
      allStocksNonneg db.products →
      (req.items.map (fun it => it.productId)).Nodup →
      allStocksNonneg (createOrderStep db req nid now).1.products) ∧
    (∀ (db : Database) (oid : String) (now : ℚ),
      allStocksNonneg db.products →
      (∀ o, findOrder db.orders oid = some o → ∀ it ∈ o.items, 0 ≤ it.quantity) →
      allStocksNonneg (cancelOrderStep db oid now).1.products) := by
  constructor
  · intro db req nid now hnn hnd
    unfold createOrderStep
    by_cases hv : validateOrderB req
    · rw [if_pos hv]
      by_cases hs : validateStockAvailability db.products req.items
      · rw [if_pos hs]
        show allStocksNonneg (updateProductStock db.products
          (enrichOrderItems db.products req.items))
        apply updateProductStock_nonneg (enrichOrderItems db.products req.items)
          db.products hnn
        · intro it' hmem'
          obtain ⟨it, hit, hpid, hqty⟩ :=
            enrichOrderItems_fields db.products req.items it' hmem'
          obtain ⟨p, hp, hnlt⟩ := (validateStock_iff db.products req.items).mp hs it hit
          refine ⟨p.stock, ?_, ?_⟩
          · rw [hpid]
            simp [getStock, hp]
          · rw [hqty]
            exact not_lt.mp hnlt
        · rw [enrich_map_productId]
          exact hnd
      · rw [if_neg hs]
        exact hnn
    · rw [if_neg hv]
      exact hnn
  · intro db oid now hnn hitems
    unfold cancelOrderStep
    cases hford : findOrder db.orders oid with
    | none => exact hnn
    | some o =>
      dsimp only
      by_cases hc : canCancelOrder o
      · rw [if_pos hc]
        exact restoreProductStock_nonneg o.items db.products hnn (hitems o hford)
      · rw [if_neg hc]
        exact hnn

/-- Claim C6 witness: a concrete successful creation keeps all stocks
non-negative. -/
theorem C6_witness :
    allStocksNonneg (createOrderStep wDbNoOrders wReq "o1" 0).1.products :=
  C6_stock_nonneg_amended.1 wDbNoOrders wReq "o1" 0 (by unfold allStocksNonneg; decide) (by decide)

/-! ## Cart theorems -/

lemma setCartQtyFirst_spec (pid : String) (q : ℚ) :
    ∀ (items : List CartItem) (ex : CartItem),
      items.find? (fun it => it.productId == pid) = some ex →
      ∃ items', setCartQtyFirst items pid q = some items' ∧
        items'.map (fun it => it.productId) = items.map (fun it => it.productId) ∧
        items'.find? (fun it => it.productId == pid) = some { ex with quantity := q } := by
  intro items
  induction items with
  | nil => intro ex h; simp at h
  | cons it rest ih =>
    intro ex h
    by_cases hb : it.productId = pid
    · have hfind : (it :: rest).find? (fun x => x.productId == pid) = some it :=
        List.find?_cons_of_pos rest (by simp [hb])
      rw [hfind] at h
      obtain rfl : it = ex := Option.some_inj.mp h
      refine ⟨{ it with quantity := q } :: rest, ?_, ?_, ?_⟩
      · simp [setCartQtyFirst, hb]
      · simp
      · exact List.find?_cons_of_pos rest (by simp [hb])
    · have hfind : (it :: rest).find? (fun x => x.productId == pid) =
          rest.find? (fun x => x.productId == pid) :=
        List.find?_cons_of_neg rest (by simp [hb])
      rw [hfind] at h
      obtain ⟨items', h1, h2, h3⟩ := ih ex h
      refine ⟨it :: items', ?_, ?_, ?_⟩
      · simp [setCartQtyFirst, hb, h1]
      · simp [h2]
      · rw [List.find?_cons_of_neg items' (by simp [hb])]
        exact h3

lemma setCartQtyFirst_none (pid : String) (q : ℚ) :
    ∀ items : List CartItem,
      items.find? (fun it => it.productId == pid) = none →
      setCartQtyFirst items pid q = none := by
  intro items
  induction items with
  | nil => intro _; rfl
  | cons it rest ih =>
    intro h
    by_cases hb : it.productId = pid
    · rw [List.find?_cons_of_pos rest (by simp [hb])] at h
      cases h
    · rw [List.find?_cons_of_neg rest (by simp [hb])] at h
      have hbne : (it.productId == pid) = false := by simp [hb]
      simp [setCartQtyFirst, hbne, ih h]

lemma addItemToCart_merges (cart : Cart) (product : Product) (q now : ℚ)
    (ex : CartItem) (hex : findCartItem cart product.id = some ex) :
    ∃ cart', addItemToCart cart product q now = some cart' ∧
      cart'.items.map (fun it => it.productId) =
        cart.items.map (fun it => it.productId) ∧
      (findCartItem cart' product.id).map (fun it => it.quantity) =
        some (ex.quantity + q) := by
  obtain ⟨items', h1, h2, h3⟩ :=
    setCartQtyFirst_spec product.id (ex.quantity + q) cart.items ex hex
  refine ⟨{ cart with items := items', updatedAt := now }, ?_, h2, ?_⟩
  · unfold addItemToCart updateExistingCartItem
    rw [hex]
    dsimp only
    rw [h1]
    rfl
  · unfold findCartItem
    dsimp only
    rw [h3]
    rfl

lemma addItemToCart_appends (cart : Cart) (product : Product) (q now : ℚ)
    (hnone : findCartItem cart product.id = none) :
    addItemToCart cart product q now = some (addNewCartItem cart product q now) := by
  unfold addItemToCart
  rw [hnone]

lemma addItemToCart_isSome (cart : Cart) (product : Product) (q now : ℚ) :
    ∃ cart', addItemToCart cart product q now = some cart' := by
  cases hex : findCartItem cart product.id with
  | some ex =>
    obtain ⟨c', h1, -, -⟩ := addItemToCart_merges cart product q now ex hex
    exact ⟨c', h1⟩
  | none => exact ⟨_, addItemToCart_appends cart product q now hex⟩

lemma pidsNodup_addItem (cart : Cart) (product : Product) (q now : ℚ) (cart' : Cart)
    (hnd : pidsNodup cart) (h : addItemToCart cart product q now = some cart') :
    pidsNodup cart' := by
  cases hex : findCartItem cart product.id with
  | some ex =>
    obtain ⟨items', h1, h2, h3⟩ :=
      setCartQtyFirst_spec product.id (ex.quantity + q) cart.items ex hex
    unfold addItemToCart updateExistingCartItem at h
    rw [hex] at h
    dsimp only at h
    rw [h1] at h
    simp only [Option.map_some'] at h
    obtain rfl := Option.some_inj.mp h
    unfold pidsNodup at hnd ⊢
    dsimp only
    rw [h2]
    exact hnd
  | none =>
    unfold addItemToCart at h
    rw [hex] at h
    dsimp only at h
    obtain rfl := Option.some_inj.mp h
    have hnotin : product.id ∉ cart.items.map (fun it => it.productId) := by
      intro hmem
      obtain ⟨it, hit, hpid⟩ := List.mem_map.mp hmem
      have := List.find?_eq_none.mp hex it hit
      simp [hpid] at this
    unfold pidsNodup at hnd ⊢
    unfold addNewCartItem buildCartItem
    simp only [List.map_append, List.map_cons, List.map_nil]
    rw [List.nodup_append]
    exact ⟨hnd, List.nodup_singleton _, by simpa using hnotin⟩

lemma addFold_nodup (now₀ : ℚ) (ops : List (Product × ℚ)) :
    ∀ c : Cart, pidsNodup c →
      ∃ c', ops.foldl (fun oc op => oc.bind (fun c => addItemToCart c op.1 op.2 now₀))
        (some c) = some c' ∧ pidsNodup c' := by
  induction ops with
  | nil => intro c h; exact ⟨c, rfl, h⟩
  | cons op rest ih =>
    intro c h
    obtain ⟨c₁, h1⟩ := addItemToCart_isSome c op.1 op.2 now₀
    have hnd₁ := pidsNodup_addItem c op.1 op.2 now₀ c₁ h h1
    obtain ⟨c', hfold, hnd'⟩ := ih c₁ hnd₁
    refine ⟨c', ?_, hnd'⟩
    rw [List.foldl_cons]
    have hbind : (some c).bind (fun c => addItemToCart c op.1 op.2 now₀) = some c₁ := by
      simpa using h1
    rw [hbind]
    exact hfold

/-- Claim C7: adding a product that already has a cart line merges into
that line (same product-id sequence, quantity increased by the requested
amount, no appended line), and any sequence of `addItem` operations starting
from an empty cart yields a cart with at most one line per product id. -/
theorem C7_cart_merge_nodup :
    (∀ (cart : Cart) (product : Product) (q now : ℚ) (ex : CartItem),
      findCartItem cart product.id = some ex →
      ∃ cart', addItemToCart cart product q now = some cart' ∧
        cart'.items.map (fun it => it.productId) =
          cart.items.map (fun it => it.productId) ∧
        (findCartItem cart' product.id).map (fun it => it.quantity) =
          some (ex.quantity + q)) ∧
    (∀ (ops : List (Product × ℚ)) (uid cid : String) (now₀ : ℚ),
      ∃ cart', ops.foldl (fun oc op => oc.bind (fun c => addItemToCart c op.1 op.2 now₀))
        (some (buildEmptyCart uid cid now₀)) = some cart' ∧ pidsNodup cart') := by
  constructor
  · exact fun cart product q now ex hex => addItemToCart_merges cart product q now ex hex
  · intro ops uid cid now₀
    exact addFold_nodup now₀ ops (buildEmptyCart uid cid now₀)
      (by simp [pidsNodup, buildEmptyCart])

/-- Claim C7 witness: adding two more widgets to the fixture cart merges
into the existing line. -/
theorem C7_witness :
    ∃ cart', addItemToCart wCart ⟨"p1", "Widget", 10, "c1", 5⟩ 2 3 = some cart' ∧
      cart'.items.map (fun it => it.productId) =
        wCart.items.map (fun it => it.productId) ∧
      (findCartItem cart' "p1").map (fun it => it.quantity) = some (1 + 2) :=
  C7_cart_merge_nodup.1 wCart ⟨"p1", "Widget", 10, "c1", 5⟩ 2 3
    ⟨"p1", some "Widget", 10, 1, 0⟩ rfl

/-- Claim C9: when the product exists, the stock check passes, the user's
cart exists but has no line for the product, and the requested quantity is
positive, the cart item-update route reaches the `-1` index assignment,
i.e. throws (modelled as `none`) instead of answering. -/
theorem C9_cart_update_crashes :
    ∀ (products : List Product) (carts : List Cart) (uid pid : String)
      (q now : ℚ) (cid : String) (product : Product) (cart : Cart),
      findProduct products pid = some product →
      checkStockAvailable product q = true →
      carts.find? (fun c => c.userId == uid) = some cart →
      findCartItem cart pid = none →
      0 < q →
      putCartItemStep products carts uid pid q now cid = none := by
  intro products carts uid pid q now cid product cart hp hstock hcart hline hq
  unfold putCartItemStep
  rw [hp]
  dsimp only
  rw [if_pos hstock, hcart]
  dsimp only
  rw [if_neg (not_le.mpr hq)]
  unfold updateExistingCartItem
  rw [setCartQtyFirst_none pid q cart.items hline]
  rfl

/-- Claim C9 witness: a cart without a `p1` line crashes the update route. -/
theorem C9_witness :
    putCartItemStep wProducts [⟨"cart2", "u2", [], 0, 0⟩] "u2" "p1" 1 0 "newc" = none :=
  C9_cart_update_crashes wProducts [⟨"cart2", "u2", [], 0, 0⟩] "u2" "p1" 1 0 "newc"
    ⟨"p1", "Widget", 10, "c1", 5⟩ ⟨"cart2", "u2", [], 0, 0⟩
    rfl (by decide) rfl rfl (by norm_num)

/-! ## Payment theorems -/

lemma contains_completed_iff (st : PaymentStatus) :
    ([PaymentStatus.completed].contains st = true) ↔ st = .completed := by
  cases st <;> decide

lemma canRefundPayment_iff (now : ℚ) (p : Payment) :
    canRefundPayment now p = true ↔
      (p.status = .completed ∧ calculateDaysSince now p.createdAt ≤ 30) := by
  unfold canRefundPayment
  rw [Bool.and_eq_true]
  simp only [contains_completed_iff, decide_eq_true_eq]

lemma findPayment_setPaymentStatusFirst (pid : String) (st : PaymentStatus) (now : ℚ) :
    ∀ payments : List Payment,
      findPayment (setPaymentStatusFirst payments pid st now) pid =
        (findPayment payments pid).map
          (fun p => { p with status := st, updatedAt := some now }) := by
  intro payments
  induction payments with
  | nil => simp [setPaymentStatusFirst, findPayment]
  | cons p rest ih =>
    by_cases h : p.id = pid
    · have h1 : setPaymentStatusFirst (p :: rest) pid st now =
          { p with status := st, updatedAt := some now } :: rest := by
        simp [setPaymentStatusFirst, h]
      rw [h1]
      rw [show findPayment ({ p with status := st, updatedAt := some now } :: rest) pid =
        some { p with status := st, updatedAt := some now } from
        List.find?_cons_of_pos rest (by simp [h])]
      rw [show findPayment (p :: rest) pid = some p from
        List.find?_cons_of_pos rest (by simp [h])]
      rfl
    · have h1 : setPaymentStatusFirst (p :: rest) pid st now =
          p :: setPaymentStatusFirst rest pid st now := by
        simp [setPaymentStatusFirst, h]
      rw [h1]
      rw [show findPayment (p :: setPaymentStatusFirst rest pid st now) pid =
        findPayment (setPaymentStatusFirst rest pid st now) pid from
        List.find?_cons_of_neg _ (by simp [h])]
      rw [show findPayment (p :: rest) pid = findPayment rest pid from
        List.find?_cons_of_neg _ (by simp [h])]
      exact ih

/-- Claim C8: a refund is accepted iff the payment is completed, at most 30
days old, and the (falsy-defaulted) requested amount does not exceed the
original amount; rejections leave the payment list unchanged, and on
acceptance the payment is marked refunded. -/
theorem C8_refund_policy :
    ∀ (now : ℚ) (payments : List Payment) (pid : String) (amount : Option ℚ)
      (p : Payment),
      findPayment payments pid = some p →
      (((refundStep now payments pid amount).2 = true) ↔
        (p.status = .completed ∧ calculateDaysSince now p.createdAt ≤ 30 ∧
          refundAmountOf p amount ≤ p.amount)) ∧
      ((refundStep now payments pid amount).2 = false →
        refundStep now payments pid amount = (payments, false)) ∧
      ((refundStep now payments pid amount).2 = true →
        findPayment (refundStep now payments pid amount).1 pid =
          some { p with status := .refunded, updatedAt := some now }) := by
  intro now payments pid amount p hf
  have hstep : refundStep now payments pid amount =
      (if canRefundPayment now p then
        if refundAmountOf p amount > p.amount then (payments, false)
        else (setPaymentStatusFirst payments pid .refunded now, true)
      else (payments, false)) := by
    unfold refundStep
    rw [hf]
  refine ⟨?_, ?_, ?_⟩
  · rw [hstep]
    by_cases hc : canRefundPayment now p
    · by_cases ha : refundAmountOf p amount > p.amount
      · rw [if_pos hc, if_pos ha]
        constructor
        · intro h
          simp at h
        · rintro ⟨-, -, h3⟩
          exact absurd ha (not_lt.mpr h3)
      · rw [if_pos hc, if_neg ha]
        have hcr := (canRefundPayment_iff now p).mp hc
        exact ⟨fun _ => ⟨hcr.1, hcr.2, not_lt.mp ha⟩, fun _ => rfl⟩
    · rw [if_neg hc]
      constructor
      · intro h
        simp at h
      · rintro ⟨h1, h2, -⟩
        exact absurd ((canRefundPayment_iff now p).mpr ⟨h1, h2⟩) hc
  · intro hfalse
    rw [hstep] at hfalse ⊢
    by_cases hc : canRefundPayment now p
    · by_cases ha : refundAmountOf p amount > p.amount
      · rw [if_pos hc, if_pos ha]
      · rw [if_pos hc, if_neg ha] at hfalse
        simp at hfalse
    · rw [if_neg hc]
  · intro htrue
    rw [hstep] at htrue ⊢
    by_cases hc : canRefundPayment now p
    · by_cases ha : refundAmountOf p amount > p.amount
      · rw [if_pos hc, if_pos ha] at htrue
        simp at htrue
      · rw [if_pos hc, if_neg ha]
        dsimp only
        rw [findPayment_setPaymentStatusFirst pid .refunded now payments, hf]
        rfl
    · rw [if_neg hc] at htrue
      simp at htrue

/-- Claim C8 witness: the fixture payment is 31 days old at the given
clock, so the refund is rejected regardless of amount and the list is
unchanged. -/
theorem C8_witness :
    refundStep 2678400000 [wPayment] "pay1" none = ([wPayment], false) := by
  have h := C8_refund_policy 2678400000 [wPayment] "pay1" none wPayment rfl
  have hdays : calculateDaysSince 2678400000 wPayment.createdAt = 31 := by
    show (⌊((2678400000 : ℚ) - 0) / 86400000⌋ : ℤ) = 31
    rw [Int.floor_eq_iff]
    constructor <;> norm_num
  have hfalse : (refundStep 2678400000 [wPayment] "pay1" none).2 = false := by
    by_cases hb : (refundStep 2678400000 [wPayment] "pay1" none).2 = true
    · exfalso
      obtain ⟨-, hle, -⟩ := h.1.mp hb
      rw [hdays] at hle
      norm_num at hle
    · simpa using hb
  exact h.2.1 hfalse

/-! ## Item snapshot theorem (claim C10) -/

/-- Claim C10: order items are snapshotted from the catalog at creation:
client-supplied price and name are ignored (scrubbing them changes
nothing), the stored order's items and totals are computed from the
enriched items, and a missing product yields name `"Unknown"` and price
`0`. -/
theorem C10_price_name_snapshot :
    (∀ (products : List Product) (items : List OrderItem),
      enrichOrderItems products items =
        enrichOrderItems products
          (items.map (fun it => { it with price := 0, name := none }))) ∧
    (∀ (products : List Product) (data : OrderRequest) (nid : String) (now : ℚ),
      (buildOrderObject products data nid now).items =
        enrichOrderItems products data.items ∧
      (buildOrderObject products data nid now).totals =
        calculateTotal (enrichOrderItems products data.items)) ∧
    (∀ (products : List Product) (items : List OrderItem) (it' : OrderItem),
      it' ∈ enrichOrderItems products items →
      (∃ p, findProduct products it'.productId = some p ∧
        it'.price = p.price ∧ it'.name = some p.name) ∨
      (findProduct products it'.productId = none ∧
        it'.price = 0 ∧ it'.name = some "Unknown")) := by
  refine ⟨?_, ?_, ?_⟩
  · intro products items
    unfold enrichOrderItems
    rw [List.map_map]
    apply List.map_congr_left
    intro it _
    cases it with
    | mk pid nm pr q w d => simp [Function.comp]
  · intro products data nid now
    exact ⟨rfl, rfl⟩
  · intro products items it' h'
    obtain ⟨it, hit, heq⟩ := List.mem_map.mp h'
    cases hf : findProduct products it.productId with
    | some p =>
      left
      refine ⟨p, ?_, ?_, ?_⟩ <;> rw [← heq] <;> simp [hf]
    | none =>
      right
      refine ⟨?_, ?_, ?_⟩ <;> rw [← heq] <;> simp [hf]

/-- Claim C10 witness: the enriched fixture item carries the catalog's
name and price, not the client's. -/
theorem C10_witness :
    (∃ p, findProduct wProducts (⟨"p1", some "Widget", 10, 1, none, none⟩ : OrderItem).productId =
        some p ∧
      (⟨"p1", some "Widget", 10, 1, none, none⟩ : OrderItem).price = p.price ∧
      (⟨"p1", some "Widget", 10, 1, none, none⟩ : OrderItem).name = some p.name) ∨
    (findProduct wProducts (⟨"p1", some "Widget", 10, 1, none, none⟩ : OrderItem).productId =
        none ∧
      (⟨"p1", some "Widget", 10, 1, none, none⟩ : OrderItem).price = 0 ∧
      (⟨"p1", some "Widget", 10, 1, none, none⟩ : OrderItem).name = some "Unknown") :=
  C10_price_name_snapshot.2.2 wProducts [⟨"p1", some "client", 999, 1, none, none⟩]
    ⟨"p1", some "Widget", 10, 1, none, none⟩ (by decide)

end ECom
